import Mathlib

/-!
Verification of the core logic of `es_gui.py` (isee15/es-viewer): the
minimal Elasticsearch HTTP client (`SimpleEsClient`, lines 35-82) and the
recursive JSON-to-tree normalizer (`ElasticsearchViewer._populate_tree_model`,
lines 346-360).

The embedding is shallow: request construction and response handling are
pure Lean functions over explicit data.  The outcome of the `requests`
library call (a delivered response, an `SSLError`, or another
`RequestException`) is an input to the response handler, mirroring the
`try`/`except` structure of `_make_request`.  JSON values are modelled as a
tagged tree with insertion-ordered object fields; JSON numbers are modelled
as integers (float formatting is outside the scope of the verified claims).
-/

/-- A JSON value as produced by `response.json()` and fed to the UI tree.
Object fields keep parse/insertion order, matching Python dicts. -/
inductive Json where
  | null
  | bool (b : Bool)
  | num (n : Int)
  | str (s : String)
  | arr (elems : List Json)
  | obj (fields : List (String × Json))
deriving Repr

/-- `True` exactly for the Python values that satisfy
`isinstance(value, (dict, list))` in `_populate_tree_model`. -/
def Json.isComposite : Json → Bool
  | .obj _ => true
  | .arr _ => true
  | _ => false

/-- `True` for the scalar leaves: everything `str(value)` is applied to. -/
def Json.isScalar (v : Json) : Bool := !v.isComposite

/-- Python `str()` applied to a parsed JSON scalar: `str(None)` is `"None"`,
`str(True)`/`str(False)` are capitalized, integers print in decimal, and a
string is returned unchanged.  On composites (where the source never calls
`str`, because it recurses instead) we return the empty string. -/
def pyStr : Json → String
  | .null => "None"
  | .bool true => "True"
  | .bool false => "False"
  | .num n => toString n
  | .str s => s
  | .arr _ => ""
  | .obj _ => ""

/-- One row of the results tree: the `Key` column text, the optional
`Value` column text, and the child rows appended under the key item
(`parent_item.appendRow` plus recursion in `_populate_tree_model`). -/
inductive TreeRow where
  | mk (key : String) (value : Option String) (children : List TreeRow)
deriving Repr

def TreeRow.key : TreeRow → String
  | .mk k _ _ => k

def TreeRow.value : TreeRow → Option String
  | .mk _ v _ => v

def TreeRow.children : TreeRow → List TreeRow
  | .mk _ _ cs => cs

/-- The label `f"[{index}]"` given to an array element's row. -/
def indexLabel (i : Nat) : String := "[" ++ toString i ++ "]"

mutual

/-- `ElasticsearchViewer._populate_tree_model(data, parent_item)` (lines
346-360) as the list of rows appended under `parent_item`.  A dict yields
one row per key in order; a list yields one row per element labelled
`[i]`; any other value yields no rows at all (the function body has no
branch for a scalar argument). -/
def normalizeJson : Json → List TreeRow
  | .obj kvs => normFields kvs
  | .arr vs => normElems 0 vs
  | .null => []
  | .bool _ => []
  | .num _ => []
  | .str _ => []

/-- The dict branch (lines 347-353): for each key/value pair, a row keyed
by `str(key)`; a composite value recurses into the row's children and
leaves the value column unset, a scalar value is stringified into the
value column. -/
def normFields : List (String × Json) → List TreeRow
  | [] => []
  | (k, v) :: rest =>
    (if v.isComposite then TreeRow.mk k none (normalizeJson v)
     else TreeRow.mk k (some (pyStr v)) []) :: normFields rest

/-- The list branch (lines 354-360): the same branching, with the row key
`f"[{index}]"` from `enumerate`. -/
def normElems : Nat → List Json → List TreeRow
  | _, [] => []
  | i, v :: rest =>
    (if v.isComposite then TreeRow.mk (indexLabel i) none (normalizeJson v)
     else TreeRow.mk (indexLabel i) (some (pyStr v)) []) :: normElems (i + 1) rest

end

/-- `base_url.endswith('/')` normalization in `SimpleEsClient.__init__`
(lines 45-46): when the last character is a slash, `base_url[:-1]` drops
it; otherwise the URL is kept as is. -/
def stripTrailingSlash (s : String) : String :=
  if s.data.getLast? = some '/' then String.mk s.data.dropLast else s

/-- The configuration held by a `SimpleEsClient` instance (lines 44-49):
normalized base URL, optional basic-auth credentials, TLS verification
flag.  The constant JSON content-type header is implicit. -/
structure SimpleEsClient where
  base_url : String
  auth : Option (String × String)
  verify_ssl : Bool
deriving Repr, DecidableEq

/-- `SimpleEsClient.__init__(base_url, auth, verify_ssl)`. -/
def SimpleEsClient.make (base_url : String) (auth : Option (String × String))
    (verify_ssl : Bool) : SimpleEsClient :=
  ⟨stripTrailingSlash base_url, auth, verify_ssl⟩

/-- The single HTTP request issued by one call to `_make_request`: method,
full URL, and optional JSON body (the `json=` keyword argument). -/
structure EsRequest where
  method : String
  url : String
  body : Option Json
deriving Repr

/-- `url = f"{self.base_url}/{endpoint}"` (line 53). -/
def SimpleEsClient.requestUrl (c : SimpleEsClient) (endpoint : String) : String :=
  c.base_url ++ "/" ++ endpoint

/-- Python truthiness of an optional string: `None` and `""` are falsy. -/
def pyTruthyStr : Option String → Bool
  | none => false
  | some s => !s.isEmpty

/-- `info()` (line 75): GET on the bare base URL. -/
def SimpleEsClient.info (c : SimpleEsClient) : EsRequest :=
  ⟨"GET", c.requestUrl "", none⟩

/-- `search(index, query)` (line 76): POST to `{index}/_search`. -/
def SimpleEsClient.search (c : SimpleEsClient) (index : String) (query : Json) : EsRequest :=
  ⟨"POST", c.requestUrl (index ++ "/_search"), some query⟩

/-- `get_document(index, doc_id)` (line 77). -/
def SimpleEsClient.get_document (c : SimpleEsClient) (index doc_id : String) : EsRequest :=
  ⟨"GET", c.requestUrl (index ++ "/_doc/" ++ doc_id), none⟩

/-- `index_document(index, document, doc_id=None)` (lines 78-80): the
branch is `if doc_id:`, i.e. Python truthiness, so both `None` and the
empty string select the POST branch. -/
def SimpleEsClient.index_document (c : SimpleEsClient) (index : String)
    (document : Json) (doc_id : Option String) : EsRequest :=
  if pyTruthyStr doc_id then
    ⟨"PUT", c.requestUrl (index ++ "/_doc/" ++ doc_id.getD ""), some document⟩
  else
    ⟨"POST", c.requestUrl (index ++ "/_doc"), some document⟩

/-- `update_document(index, doc_id, payload)` (line 81). -/
def SimpleEsClient.update_document (c : SimpleEsClient) (index doc_id : String)
    (payload : Json) : EsRequest :=
  ⟨"POST", c.requestUrl (index ++ "/_update/" ++ doc_id), some payload⟩

/-- `delete_document(index, doc_id)` (line 82). -/
def SimpleEsClient.delete_document (c : SimpleEsClient) (index doc_id : String) : EsRequest :=
  ⟨"DELETE", c.requestUrl (index ++ "/_doc/" ++ doc_id), none⟩

/-- The one exception class the module defines for client failures
(lines 35-37).  It has no subclasses; its only payload is the message
string passed at each raise site. -/
inductive SimpleEsClientError where
  | mk (msg : String)
deriving Repr, DecidableEq

def SimpleEsClientError.msg : SimpleEsClientError → String
  | .mk m => m

/-- The Python class of a raised error value.  Every raise site in
`_make_request` (lines 69, 71, 73) constructs `SimpleEsClientError`
itself, so the class is constant. -/
def SimpleEsClientError.className : SimpleEsClientError → String
  | .mk _ => "SimpleEsClientError"

/-- A delivered HTTP response as seen by `_make_request`: status code,
reason phrase, raw body text (`response.text` / emptiness of
`response.content`), the result of `response.json()` on that body
(`parsed = none` when the body is not valid JSON), and the message of the
decoder error in that case. -/
structure HttpResponse where
  status : Nat
  reason : String
  content : String
  parsed : Option Json
  decodeErrMsg : String
deriving Repr

/-- The outcome of the `requests.request(...)` call in `_make_request`: a
delivered response, or one of the exceptions the `try` block
distinguishes — `requests.exceptions.SSLError`, caught first at line 70,
or any other `requests.exceptions.RequestException`, caught at line 72. -/
inductive RequestOutcome where
  | response (r : HttpResponse)
  | sslError (detail : String)
  | requestError (detail : String)
deriving Repr

/-- Four-digit lowercase hex, as in a Python `\uXXXX` escape. -/
def uEscape4 (n : Nat) : String :=
  "\\u" ++ String.mk (List.replicate (4 - (Nat.toDigits 16 n).length) '0' ++ Nat.toDigits 16 n)

/-- Escaping of one character by `json.dumps` with its default
`ensure_ascii=True`: the two-character shorthands, printable ASCII kept
verbatim, everything else as `\uXXXX` (astral characters as a surrogate
pair). -/
def pyJsonEscapeChar (c : Char) : String :=
  if c = '"' then "\\\""
  else if c = '\\' then "\\\\"
  else if c = '\n' then "\\n"
  else if c = '\r' then "\\r"
  else if c = '\t' then "\\t"
  else if c = '\x08' then "\\b"
  else if c = '\x0c' then "\\f"
  else if 0x20 ≤ c.toNat ∧ c.toNat ≤ 0x7e then String.singleton c
  else if c.toNat < 0x10000 then uEscape4 c.toNat
  else
    uEscape4 (0xd800 + (c.toNat - 0x10000) / 0x400) ++
      uEscape4 (0xdc00 + (c.toNat - 0x10000) % 0x400)

def pyJsonEscape (s : String) : String :=
  String.join (s.data.map pyJsonEscapeChar)

mutual

/-- `json.dumps` with default separators `", "` and `": "`, as called at
line 67 on the decoded error body. -/
def jsonDumps : Json → String
  | .null => "null"
  | .bool true => "true"
  | .bool false => "false"
  | .num n => toString n
  | .str s => "\"" ++ pyJsonEscape s ++ "\""
  | .arr vs => "[" ++ dumpsElems vs ++ "]"
  | .obj kvs => "\x7b" ++ dumpsFields kvs ++ "\x7d"

def dumpsElems : List Json → String
  | [] => ""
  | [v] => jsonDumps v
  | v :: rest => jsonDumps v ++ ", " ++ dumpsElems rest

def dumpsFields : List (String × Json) → String
  | [] => ""
  | [(k, v)] => "\"" ++ pyJsonEscape k ++ "\": " ++ jsonDumps v
  | (k, v) :: rest => "\"" ++ pyJsonEscape k ++ "\": " ++ jsonDumps v ++ ", " ++ dumpsFields rest

end

/-- Message of the error raised at line 71 for an
`requests.exceptions.SSLError`. -/
def sslErrorMessage (detail : String) : String :=
  "SSL Error: Could not verify certificate. Try unchecking \x27Verify SSL Certificate\x27.\nDetails: "
    ++ detail

/-- Message of the error raised at line 73 for any other
`requests.exceptions.RequestException` (timeout, DNS failure, connection
refused, ...). -/
def connectionErrorMessage (detail : String) : String :=
  "Connection failed: " ++ detail

/-- The suffix appended at lines 65-68: the dumped JSON error body when
the response body parses, otherwise the raw text. -/
def httpErrorDetails (r : HttpResponse) : String :=
  match r.parsed with
  | some j => "\nDetails: " ++ jsonDumps j
  | none => "\nResponse Body: " ++ r.content

/-- Message of the error raised at line 69 for an HTTP error status
(lines 64-68). -/
def httpErrorMessage (r : HttpResponse) : String :=
  "HTTP Error: " ++ toString r.status ++ " " ++ r.reason ++ httpErrorDetails r

/-- The acknowledgement object built at line 61 for a 204 or empty-body
response. -/
def ackJson (status : Nat) (method : String) : Json :=
  Json.obj [("acknowledged", Json.bool true), ("status", Json.num (Int.ofNat status)),
    ("operation", Json.str method)]

/-- The response/exception handling of `_make_request` (lines 54-73) for
one issued request.  `response.raise_for_status()` raises
`requests.exceptions.HTTPError` exactly for status codes 400-599 (client
and server errors); other statuses fall through to the 204/empty-body
normalization and then to `response.json()`.  A JSON decode failure on a
successful response raises `requests.exceptions.JSONDecodeError`, a
`RequestException` subclass, so it is caught by the final handler and
reported as a connection failure. -/
def makeRequest (method : String) (outcome : RequestOutcome) :
    Except SimpleEsClientError Json :=
  match outcome with
  | .response r =>
    if 400 ≤ r.status ∧ r.status < 600 then
      .error (.mk (httpErrorMessage r))
    else if r.status == 204 || r.content == "" then
      .ok (ackJson r.status method)
    else
      match r.parsed with
      | some j => .ok j
      | none => .error (.mk (connectionErrorMessage r.decodeErrMsg))
  | .sslError d => .error (.mk (sslErrorMessage d))
  | .requestError d => .error (.mk (connectionErrorMessage d))

/-- First character of a string, used to separate the fixed message
prefixes of the three failure paths. -/
def firstChar (s : String) : Option Char := s.data.head?

mutual

/-- No tree row carries both a value text and child rows, recursively. -/
def rowNoBoth : TreeRow → Bool
  | .mk _ val cs => !(val.isSome && !cs.isEmpty) && forestNoBoth cs

def forestNoBoth : List TreeRow → Bool
  | [] => true
  | r :: rs => rowNoBoth r && forestNoBoth rs

end

mutual

/-- Every tree row has exactly one of a value text and a non-empty child
list, recursively. -/
def rowExactlyOne : TreeRow → Bool
  | .mk _ val cs => (val.isSome != !cs.isEmpty) && forestExactlyOne cs

def forestExactlyOne : List TreeRow → Bool
  | [] => true
  | r :: rs => rowExactlyOne r && forestExactlyOne rs

end

mutual

/-- No empty object and no empty array occurs anywhere in the value. -/
def noEmptyContainers : Json → Bool
  | .obj kvs => !kvs.isEmpty && noEmptyFields kvs
  | .arr vs => !vs.isEmpty && noEmptyElems vs
  | _ => true

def noEmptyFields : List (String × Json) → Bool
  | [] => true
  | (_, v) :: rest => noEmptyContainers v && noEmptyFields rest

def noEmptyElems : List Json → Bool
  | [] => true
  | v :: rest => noEmptyContainers v && noEmptyElems rest

end

/-- A JSON shape whose scalars have been replaced by their Python string
forms: the reconstruction target for the round-trip claim. -/
inductive StrJson where
  | scalar (s : String)
  | arr (elems : List StrJson)
  | obj (fields : List (String × StrJson))
deriving Repr

mutual

/-- The stringified shape of a JSON value: keys, order and nesting kept,
every scalar replaced by its `str()` form.  This is exactly the
information the spec claims survives normalization. -/
def strShape : Json → StrJson
  | .obj kvs => .obj (strShapeFields kvs)
  | .arr vs => .arr (strShapeElems vs)
  | v => .scalar (pyStr v)

def strShapeFields : List (String × Json) → List (String × StrJson)
  | [] => []
  | (k, v) :: rest => (k, strShape v) :: strShapeFields rest

def strShapeElems : List Json → List StrJson
  | [] => []
  | v :: rest => strShape v :: strShapeElems rest

end

/-- Whether a list of strings is exactly the array index labels
`[i]`, `[i+1]`, ... -/
def keysIndexLike : Nat → List String → Bool
  | _, [] => true
  | i, k :: ks => (k == indexLabel i) && keysIndexLike (i + 1) ks

mutual

/-- The distinguished class of JSON values on which normalization is
lossless: the value has no empty object or array anywhere, and no object
whose key sequence coincides with the array index labels. -/
def goodJson : Json → Bool
  | .obj kvs => !kvs.isEmpty && !keysIndexLike 0 (kvs.map Prod.fst) && goodFields kvs
  | .arr vs => !vs.isEmpty && goodElems vs
  | _ => true

def goodFields : List (String × Json) → Bool
  | [] => true
  | (_, v) :: rest => goodJson v && goodFields rest

def goodElems : List Json → Bool
  | [] => true
  | v :: rest => goodJson v && goodElems rest

end

mutual

/-- Reconstruction of a stringified shape from one tree row: a row with a
value is a scalar leaf; a row without one is a container rebuilt from its
children, an array when the child keys are exactly the index labels. -/
def reconRow : TreeRow → StrJson
  | .mk _ (some s) _ => .scalar s
  | .mk _ none cs =>
    if keysIndexLike 0 (cs.map TreeRow.key) && !cs.isEmpty then .arr (reconElems cs)
    else .obj (reconFields cs)

def reconElems : List TreeRow → List StrJson
  | [] => []
  | r :: rs => reconRow r :: reconElems rs

def reconFields : List TreeRow → List (String × StrJson)
  | [] => []
  | r :: rs => (r.key, reconRow r) :: reconFields rs

end

/-- Reconstruction of a stringified shape from the row list the
normalizer produces for a composite root. -/
def reconstructRows (rows : List TreeRow) : StrJson :=
  if keysIndexLike 0 (rows.map TreeRow.key) && !rows.isEmpty then .arr (reconElems rows)
  else .obj (reconFields rows)

/-- Structural induction for `Json` through the nested lists: the object
and array cases receive the hypothesis for every member. -/
theorem Json.inductionOn {P : Json → Prop}
    (hnull : P .null) (hbool : ∀ b, P (.bool b)) (hnum : ∀ n, P (.num n))
    (hstr : ∀ s, P (.str s))
    (harr : ∀ vs, (∀ v ∈ vs, P v) → P (.arr vs))
    (hobj : ∀ kvs, (∀ kv ∈ kvs, P kv.2) → P (.obj kvs)) :
    ∀ v, P v
  | .null => hnull
  | .bool b => hbool b
  | .num n => hnum n
  | .str s => hstr s
  | .arr vs => harr vs (fun v hv =>
      Json.inductionOn hnull hbool hnum hstr harr hobj v)
  | .obj kvs => hobj kvs (fun kv hkv =>
      Json.inductionOn hnull hbool hnum hstr harr hobj kv.2)
termination_by v => sizeOf v
decreasing_by
  · have h := List.sizeOf_lt_of_mem hv
    simp only [Json.arr.sizeOf_spec]
    omega
  · have h := List.sizeOf_lt_of_mem hkv
    obtain ⟨a, b⟩ := kv
    simp only [Json.obj.sizeOf_spec, Prod.mk.sizeOf_spec] at *
    omega

/-- Two strings differing in their first character are different. -/
theorem string_ne_of_firstChar (s t : String) (c1 c2 : Char)
    (h1 : firstChar s = some c1) (h2 : firstChar t = some c2) (hne : c1 ≠ c2) : s ≠ t := by
  intro he
  rw [he, h2] at h1
  exact hne (Option.some.inj h1).symm

/-- C1: `index_document` with a non-empty id issues a PUT request to
`{base}/{index}/_doc/{id}`, and with no id it issues a POST request to
`{base}/{index}/_doc`.  Each call to an operation constructs exactly one
request (the embedding returns a single `EsRequest`, mirroring the single
`requests.request` call of `_make_request`). -/
theorem c1_index_document_put_post (c : SimpleEsClient) (index : String) (doc : Json)
    (id : String) (h : id ≠ "") :
    c.index_document index doc (some id) =
      ⟨"PUT", c.base_url ++ "/" ++ index ++ "/_doc/" ++ id, some doc⟩ ∧
    c.index_document index doc none =
      ⟨"POST", c.base_url ++ "/" ++ index ++ "/_doc", some doc⟩ := by
  have ht : pyTruthyStr (some id) = true := by
    have hne : ¬ id.isEmpty := fun hh => h ((String.isEmpty_iff id).mp hh)
    simp [pyTruthyStr, hne]
  constructor
  · simp [SimpleEsClient.index_document, ht, SimpleEsClient.requestUrl, String.append_assoc]
  · simp [SimpleEsClient.index_document, pyTruthyStr, SimpleEsClient.requestUrl,
      String.append_assoc]

/-- Witness for C1 at id `42` on a concrete client. -/
theorem c1_index_document_put_post_witness :
    ("42" : String) ≠ "" ∧
    ((SimpleEsClient.make "http://localhost:9200" none true).index_document "logs"
        (Json.obj []) (some "42") =
      ⟨"PUT", "http://localhost:9200/logs/_doc/42", some (Json.obj [])⟩) ∧
    ((SimpleEsClient.make "http://localhost:9200" none true).index_document "logs"
        (Json.obj []) none =
      ⟨"POST", "http://localhost:9200/logs/_doc", some (Json.obj [])⟩) := by
  refine ⟨by decide, ?_, ?_⟩
  · exact ((c1_index_document_put_post _ "logs" _ "42" (by decide)).1).trans (by rfl)
  · exact ((c1_index_document_put_post _ "logs" _ "42" (by decide)).2).trans (by rfl)

/-- C10: calling `index_document` with the empty string as id behaves
exactly like calling it with no id: Python `if doc_id:` is falsy for the
empty string, so both calls build the same POST request to
`{base}/{index}/_doc` and never a PUT with an empty trailing segment. -/
theorem c10_empty_id_is_post (c : SimpleEsClient) (index : String) (doc : Json) :
    c.index_document index doc (some "") = c.index_document index doc none := rfl

/-- C2 counterexample: the claim asks every non-2xx response to raise,
but `raise_for_status` raises only for statuses 400-599.  A 304 Not
Modified response (whose body is empty) is instead returned as a success
acknowledgement object. -/
theorem c2_non2xx_counterexample :
    makeRequest "GET" (.response ⟨304, "Not Modified", "", none, ""⟩) =
      .ok (ackJson 304 "GET") := rfl

/-- C2 (amended): for every response with a 4xx or 5xx status, the
operation raises a `SimpleEsClientError` whose message carries the status
code, the reason phrase, and the JSON-decoded error payload when the body
parses as JSON, otherwise the raw text body.  Statuses outside 400-599
(including 3xx) do not raise. -/
theorem c2_http_error_payload (method : String) (r : HttpResponse)
    (h1 : 400 ≤ r.status) (h2 : r.status < 600) :
    makeRequest method (.response r) =
      .error (.mk ("HTTP Error: " ++ toString r.status ++ " " ++ r.reason ++
        match r.parsed with
        | some j => "\nDetails: " ++ jsonDumps j
        | none => "\nResponse Body: " ++ r.content)) := by
  simp only [makeRequest]
  rw [if_pos ⟨h1, h2⟩]
  rfl

/-- Witness for C2 at the 404 example of the spec: the message carries
the decoded structured payload, not the raw-text fallback. -/
theorem c2_http_error_payload_witness :
    400 ≤ (404 : Nat) ∧ (404 : Nat) < 600 ∧
    makeRequest "GET" (.response ⟨404, "Not Found", "\x7b\"error\":\"not_found\"\x7d",
        some (Json.obj [("error", Json.str "not_found")]), ""⟩) =
      .error (.mk "HTTP Error: 404 Not Found\nDetails: \x7b\"error\": \"not_found\"\x7d") :=
  ⟨by decide, by decide,
    (c2_http_error_payload "GET" ⟨404, "Not Found", "\x7b\"error\":\"not_found\"\x7d",
        some (Json.obj [("error", Json.str "not_found")]), ""⟩
      (by decide) (by decide)).trans (by rfl)⟩

/-- C3 counterexample: the claim asks for three distinct error variants
as subtypes of a common type, but the module defines exactly one class,
`SimpleEsClientError`, with no subclasses; a TLS verification failure and
a generic connection failure are raised with that same class, so no
type-level branching between variants exists. -/
theorem c3_single_error_class_counterexample :
    makeRequest "GET" (.sslError "certificate verify failed") =
      .error (.mk (sslErrorMessage "certificate verify failed")) ∧
    makeRequest "GET" (.requestError "Connection refused") =
      .error (.mk (connectionErrorMessage "Connection refused")) ∧
    SimpleEsClientError.className (.mk (sslErrorMessage "certificate verify failed")) =
      SimpleEsClientError.className (.mk (connectionErrorMessage "Connection refused")) :=
  ⟨rfl, rfl, rfl⟩

/-- C3 (amended): all three failure paths raise the single class
`SimpleEsClientError`, so a caller catches all failures uniformly; the
variant is recoverable only from the message text, whose three fixed
prefixes are pairwise distinct.  In particular a TLS verification failure
yields the SSL-prefixed message, never equal to any generic
connection-failure message. -/
theorem c3_error_variants_amended (m d1 d2 : String) (r : HttpResponse) :
    makeRequest m (.sslError d1) = .error (.mk (sslErrorMessage d1)) ∧
    makeRequest m (.requestError d2) = .error (.mk (connectionErrorMessage d2)) ∧
    sslErrorMessage d1 ≠ connectionErrorMessage d2 ∧
    sslErrorMessage d1 ≠ httpErrorMessage r ∧
    connectionErrorMessage d2 ≠ httpErrorMessage r ∧
    SimpleEsClientError.className (.mk (sslErrorMessage d1)) =
      SimpleEsClientError.className (.mk (connectionErrorMessage d2)) :=
  ⟨rfl, rfl,
    string_ne_of_firstChar _ _ 'S' 'C' rfl rfl (by decide),
    string_ne_of_firstChar _ _ 'S' 'H' rfl rfl (by decide),
    string_ne_of_firstChar _ _ 'C' 'H' rfl rfl (by decide),
    rfl⟩

/-- C4 counterexample: an empty-body response with an error status (404)
raises instead of being returned as the acknowledgement object: the
`raise_for_status` check precedes the empty-body normalization, so the
claim does not hold for every response with an empty body. -/
theorem c4_empty_body_error_counterexample :
    makeRequest "DELETE" (.response ⟨404, "Not Found", "", none, ""⟩) =
      .error (.mk "HTTP Error: 404 Not Found\nResponse Body: ") ∧
    makeRequest "DELETE" (.response ⟨404, "Not Found", "", none, ""⟩) ≠
      .ok (ackJson 404 "DELETE") := by
  refine ⟨rfl, ?_⟩
  intro h
  rw [show makeRequest "DELETE" (.response ⟨404, "Not Found", "", none, ""⟩) =
    .error (.mk "HTTP Error: 404 Not Found\nResponse Body: ") from rfl] at h
  exact Except.noConfusion h

/-- C4 (amended): for every response whose status is outside 400-599, a
204 status or an empty body is not parsed as JSON but returned as the
object `{acknowledged: true, status: <code>, operation: <method>}` with
the actual status code and the issued HTTP method. -/
theorem c4_ack_normalization (method : String) (r : HttpResponse)
    (hok : ¬(400 ≤ r.status ∧ r.status < 600))
    (h : r.status = 204 ∨ r.content = "") :
    makeRequest method (.response r) = .ok (ackJson r.status method) := by
  simp only [makeRequest]
  rw [if_neg hok, if_pos]
  rcases h with h | h <;> simp [h]

/-- Witness for C4 at a 204 DELETE response. -/
theorem c4_ack_normalization_witness :
    ¬(400 ≤ (204 : Nat) ∧ (204 : Nat) < 600) ∧
    ((204 : Nat) = 204 ∨ ("" : String) = "") ∧
    makeRequest "DELETE" (.response ⟨204, "No Content", "", none, ""⟩) =
      .ok (ackJson 204 "DELETE") :=
  ⟨by decide, Or.inl rfl,
    c4_ack_normalization "DELETE" ⟨204, "No Content", "", none, ""⟩ (by decide) (Or.inl rfl)⟩

/-- Row keys of the dict branch are the dict keys, in order. -/
theorem normFields_map_key (kvs : List (String × Json)) :
    (normFields kvs).map TreeRow.key = kvs.map Prod.fst := by
  induction kvs with
  | nil => rfl
  | cons kv rest ih =>
    obtain ⟨k, v⟩ := kv
    cases hv : v.isComposite <;> simp [normFields, hv, TreeRow.key, ih]

/-- Row keys of the list branch are the consecutive index labels starting
at the enumeration offset. -/
theorem normElems_map_key (vs : List Json) : ∀ i : Nat,
    (normElems i vs).map TreeRow.key = (List.range' i vs.length).map indexLabel := by
  induction vs with
  | nil => intro i; rfl
  | cons v rest ih =>
    intro i
    cases hv : v.isComposite <;>
      simp [normElems, hv, TreeRow.key, ih (i + 1), List.range'_succ]

/-- C7: for every JSON object the normalizer produces one row per key,
and the row keys are exactly the keys of the object in insertion/parse
order, with no re-sorting. -/
theorem c7_object_rows_in_order (kvs : List (String × Json)) :
    (normalizeJson (Json.obj kvs)).length = kvs.length ∧
    (normalizeJson (Json.obj kvs)).map TreeRow.key = kvs.map Prod.fst := by
  have h := normFields_map_key kvs
  refine ⟨?_, by simpa [normalizeJson] using h⟩
  have := congrArg List.length h
  simpa [normalizeJson] using this

/-- C8: for every JSON array of length n the normalizer produces exactly
n rows, labeled with the index labels of 0 to n-1 in the original element
order, with no gaps. -/
theorem c8_array_row_labels (vs : List Json) :
    (normalizeJson (Json.arr vs)).length = vs.length ∧
    (normalizeJson (Json.arr vs)).map TreeRow.key =
      (List.range vs.length).map indexLabel := by
  have h := normElems_map_key vs 0
  rw [← List.range_eq_range'] at h
  refine ⟨?_, by simpa [normalizeJson] using h⟩
  have := congrArg List.length h
  simpa [normalizeJson] using this

/-- C5 counterexample: a scalar given to the normalizer as the root input
produces zero rows, not the single unlabeled leaf row the claim
requires: `_populate_tree_model` has no branch for a non-dict non-list
argument. -/
theorem c5_scalar_root_counterexample :
    (normalizeJson (Json.str "hello")).length = 0 := rfl

/-- C5 (amended): every scalar root (null, boolean, number or string)
produces no rows at all — the normalizer leaves the tree empty; only
objects and arrays produce rows. -/
theorem c5_scalar_root_amended (v : Json) (h : v.isScalar = true) :
    normalizeJson v = [] := by
  cases v <;> simp_all [Json.isScalar, Json.isComposite, normalizeJson]

/-- Witness for the amended C5 at the string scalar `hello`. -/
theorem c5_scalar_root_amended_witness :
    (Json.str "hello").isScalar = true ∧ normalizeJson (Json.str "hello") = [] :=
  ⟨rfl, c5_scalar_root_amended (Json.str "hello") rfl⟩

/-- The no-value-and-children invariant holds for the dict branch given
it holds for every recursive normalization. -/
theorem forestNoBoth_normFields (kvs : List (String × Json))
    (ih : ∀ kv ∈ kvs, forestNoBoth (normalizeJson kv.2) = true) :
    forestNoBoth (normFields kvs) = true := by
  induction kvs with
  | nil => rfl
  | cons kv rest ihr =>
    obtain ⟨k, v⟩ := kv
    have hv := ih (k, v) (by simp)
    have hrest := ihr fun kv hkv => ih kv (by simp [hkv])
    cases hc : v.isComposite <;>
      simp_all [normFields, forestNoBoth, rowNoBoth, hc]

/-- The no-value-and-children invariant holds for the list branch given
it holds for every recursive normalization. -/
theorem forestNoBoth_normElems (vs : List Json)
    (ih : ∀ v ∈ vs, forestNoBoth (normalizeJson v) = true) :
    ∀ i : Nat, forestNoBoth (normElems i vs) = true := by
  induction vs with
  | nil => intro i; rfl
  | cons v rest ihr =>
    intro i
    have hv := ih v (by simp)
    have hrest := ihr fun w hw => ih w (by simp [hw])
    cases hc : v.isComposite <;>
      simp_all [normElems, forestNoBoth, rowNoBoth, hc]

/-- No row of any normalized tree has both a value and children. -/
theorem forestNoBoth_normalizeJson (v : Json) :
    forestNoBoth (normalizeJson v) = true := by
  induction v using Json.inductionOn with
  | hnull => rfl
  | hbool b => rfl
  | hnum n => rfl
  | hstr s => rfl
  | harr vs ih => simpa [normalizeJson] using forestNoBoth_normElems vs ih 0
  | hobj kvs ih => simpa [normalizeJson] using forestNoBoth_normFields kvs ih

/-- A composite value without empty containers normalizes to at least one
row. -/
theorem normalizeJson_ne_nil (v : Json) (hc : v.isComposite = true)
    (hne : noEmptyContainers v = true) : normalizeJson v ≠ [] := by
  cases v with
  | obj kvs =>
    cases kvs with
    | nil => simp [noEmptyContainers] at hne
    | cons kv rest => simp [normalizeJson, normFields]
  | arr vs =>
    cases vs with
    | nil => simp [noEmptyContainers] at hne
    | cons v rest => simp [normalizeJson, normElems]
  | null => simp [Json.isComposite] at hc
  | bool b => simp [Json.isComposite] at hc
  | num n => simp [Json.isComposite] at hc
  | str s => simp [Json.isComposite] at hc

/-- A non-nil list is not `isEmpty`. -/
theorem isEmpty_false_of_ne_nil {α : Type} {l : List α} (h : l ≠ []) : l.isEmpty = false := by
  cases l with
  | nil => exact absurd rfl h
  | cons a t => rfl

/-- The exactly-one invariant holds for the dict branch on fields without
empty containers. -/
theorem forestExactlyOne_normFields (kvs : List (String × Json))
    (hne : noEmptyFields kvs = true)
    (ih : ∀ kv ∈ kvs, noEmptyContainers kv.2 = true →
      forestExactlyOne (normalizeJson kv.2) = true) :
    forestExactlyOne (normFields kvs) = true := by
  induction kvs with
  | nil => rfl
  | cons kv rest ihr =>
    obtain ⟨k, v⟩ := kv
    have hsplit : noEmptyContainers v = true ∧ noEmptyFields rest = true := by
      simpa [noEmptyFields] using hne
    have hv := fun hcv => ih (k, v) (by simp) hcv
    have hrest := ihr hsplit.2 fun kv hkv => ih kv (by simp [hkv])
    cases hc : v.isComposite with
    | false => simp_all [normFields, forestExactlyOne, rowExactlyOne, hc]
    | true =>
      have hnil : (normalizeJson v).isEmpty = false :=
        isEmpty_false_of_ne_nil (normalizeJson_ne_nil v hc hsplit.1)
      simp_all [normFields, forestExactlyOne, rowExactlyOne, hc, hnil]

/-- The exactly-one invariant holds for the list branch on elements
without empty containers. -/
theorem forestExactlyOne_normElems (vs : List Json)
    (hne : noEmptyElems vs = true)
    (ih : ∀ v ∈ vs, noEmptyContainers v = true →
      forestExactlyOne (normalizeJson v) = true) :
    ∀ i : Nat, forestExactlyOne (normElems i vs) = true := by
  induction vs with
  | nil => intro i; rfl
  | cons v rest ihr =>
    intro i
    have hsplit : noEmptyContainers v = true ∧ noEmptyElems rest = true := by
      simpa [noEmptyElems] using hne
    have hv := fun hcv => ih v (by simp) hcv
    have hrest := ihr hsplit.2 fun w hw => ih w (by simp [hw])
    cases hc : v.isComposite with
    | false => simp_all [normElems, forestExactlyOne, rowExactlyOne, hc]
    | true =>
      have hnil : (normalizeJson v).isEmpty = false :=
        isEmpty_false_of_ne_nil (normalizeJson_ne_nil v hc hsplit.1)
      simp_all [normElems, forestExactlyOne, rowExactlyOne, hc, hnil]

/-- Every row of a tree normalized from a value without empty containers
has exactly one of a value and a non-empty child list. -/
theorem forestExactlyOne_normalizeJson (v : Json) (hne : noEmptyContainers v = true) :
    forestExactlyOne (normalizeJson v) = true := by
  induction v using Json.inductionOn with
  | hnull => rfl
  | hbool b => rfl
  | hnum n => rfl
  | hstr s => rfl
  | harr vs ih =>
    have h : noEmptyElems vs = true := ((by simpa [noEmptyContainers] using hne :
      ¬vs = [] ∧ noEmptyElems vs = true)).2
    simpa [normalizeJson] using
      forestExactlyOne_normElems vs h (fun w hw hcw => ih w hw hcw) 0
  | hobj kvs ih =>
    have h : noEmptyFields kvs = true := ((by simpa [noEmptyContainers] using hne :
      ¬kvs = [] ∧ noEmptyFields kvs = true)).2
    simpa [normalizeJson] using
      forestExactlyOne_normFields kvs h (fun kv hkv hckv => ih kv hkv hckv)

/-- C9: no row produced by the normalizer ever has both a value and
children; and for inputs without empty objects or arrays every row has
exactly one of the two, so a row with neither can arise only from an
empty container. -/
theorem c9_tree_row_invariant (v : Json) :
    forestNoBoth (normalizeJson v) = true ∧
    (noEmptyContainers v = true → forestExactlyOne (normalizeJson v) = true) :=
  ⟨forestNoBoth_normalizeJson v, forestExactlyOne_normalizeJson v⟩

/-- Witness for C9 at a two-field object containing a nested array. -/
theorem c9_tree_row_invariant_witness :
    noEmptyContainers (Json.obj [("a", Json.num 1), ("b", Json.arr [Json.null])]) = true ∧
    forestNoBoth (normalizeJson (Json.obj [("a", Json.num 1), ("b", Json.arr [Json.null])])) = true ∧
    forestExactlyOne
      (normalizeJson (Json.obj [("a", Json.num 1), ("b", Json.arr [Json.null])])) = true :=
  ⟨rfl, (c9_tree_row_invariant _).1,
    (c9_tree_row_invariant (Json.obj [("a", Json.num 1), ("b", Json.arr [Json.null])])).2 rfl⟩

/-- The stringified shape of a scalar is its Python string form. -/
theorem strShape_scalar (v : Json) (hc : v.isComposite = false) :
    strShape v = .scalar (pyStr v) := by
  cases v <;> simp_all [Json.isComposite, strShape]

/-- A valueless row reconstructs as the reconstruction of its children. -/
theorem reconRow_none (k : String) (cs : List TreeRow) :
    reconRow (TreeRow.mk k none cs) = reconstructRows cs := rfl

/-- The row keys of the list branch pass the index label check starting
at the enumeration offset. -/
theorem keysIndexLike_normElems (vs : List Json) : ∀ i : Nat,
    keysIndexLike i ((normElems i vs).map TreeRow.key) = true := by
  induction vs with
  | nil => intro i; rfl
  | cons v rest ih =>
    intro i
    cases hc : v.isComposite <;>
      simp [normElems, hc, TreeRow.key, keysIndexLike, ih (i + 1)]

/-- The list branch of the normalizer produces at least one row on a
non-empty list. -/
theorem normElems_ne_nil (vs : List Json) (h : vs ≠ []) (i : Nat) :
    normElems i vs ≠ [] := by
  cases vs with
  | nil => exact absurd rfl h
  | cons v rest => simp [normElems]

/-- Field-wise reconstruction of the dict branch recovers the stringified
fields on distinguished values. -/
theorem reconFields_normFields (kvs : List (String × Json))
    (hg : goodFields kvs = true)
    (ih : ∀ kv ∈ kvs, goodJson kv.2 = true → kv.2.isComposite = true →
      reconstructRows (normalizeJson kv.2) = strShape kv.2) :
    reconFields (normFields kvs) = strShapeFields kvs := by
  induction kvs with
  | nil => rfl
  | cons kv rest ihr =>
    obtain ⟨k, v⟩ := kv
    have hsplit : goodJson v = true ∧ goodFields rest = true := by
      simpa [goodFields] using hg
    have hrest := ihr hsplit.2 fun kv hkv => ih kv (by simp [hkv])
    cases hc : v.isComposite with
    | false =>
      have hs : strShape v = .scalar (pyStr v) := strShape_scalar v hc
      simp [normFields, hc, reconFields, reconRow, TreeRow.key, strShapeFields, hs, hrest]
    | true =>
      have hv : reconstructRows (normalizeJson v) = strShape v :=
        ih (k, v) (by simp) hsplit.1 hc
      have hrow : reconRow (TreeRow.mk k none (normalizeJson v)) = strShape v :=
        (reconRow_none k (normalizeJson v)).trans hv
      simp [normFields, hc, reconFields, TreeRow.key, strShapeFields, hrow, hrest]

/-- Element-wise reconstruction of the list branch recovers the
stringified elements on distinguished values. -/
theorem reconElems_normElems (vs : List Json)
    (hg : goodElems vs = true)
    (ih : ∀ v ∈ vs, goodJson v = true → v.isComposite = true →
      reconstructRows (normalizeJson v) = strShape v) :
    ∀ i : Nat, reconElems (normElems i vs) = strShapeElems vs := by
  induction vs with
  | nil => intro i; rfl
  | cons v rest ihr =>
    intro i
    have hsplit : goodJson v = true ∧ goodElems rest = true := by
      simpa [goodElems] using hg
    have hrest := ihr hsplit.2 (fun w hw => ih w (by simp [hw])) (i + 1)
    cases hc : v.isComposite with
    | false =>
      have hs : strShape v = .scalar (pyStr v) := strShape_scalar v hc
      simp [normElems, hc, reconElems, reconRow, strShapeElems, hs, hrest]
    | true =>
      have hv : reconstructRows (normalizeJson v) = strShape v :=
        ih v (by simp) hsplit.1 hc
      have hrow : reconRow (TreeRow.mk (indexLabel i) none (normalizeJson v)) = strShape v :=
        (reconRow_none (indexLabel i) (normalizeJson v)).trans hv
      simp [normElems, hc, reconElems, strShapeElems, hrow, hrest]

/-- C6 counterexample: normalization is not lossless over all JSON
values.  Three identifications refute reconstruction beyond scalar
stringification: two distinct root scalars normalize to the same empty
row list (the scalars are elided entirely), an empty object and an empty
array normalize identically, and an object whose keys are the index
labels normalizes exactly like the corresponding array. -/
theorem c6_lossless_counterexample :
    normalizeJson (Json.str "a") = normalizeJson (Json.str "b") ∧
    normalizeJson (Json.obj []) = normalizeJson (Json.arr []) ∧
    normalizeJson (Json.obj [("[0]", Json.null)]) = normalizeJson (Json.arr [Json.null]) ∧
    Json.str "a" ≠ Json.str "b" ∧
    Json.obj [] ≠ Json.arr [] ∧
    Json.obj [("[0]", Json.null)] ≠ Json.arr [Json.null] := by
  refine ⟨rfl, rfl, rfl, ?_, ?_, ?_⟩
  · intro h; injection h with h'; exact absurd h' (by decide)
  · intro h; exact Json.noConfusion h
  · intro h; exact Json.noConfusion h

/-- C6 (amended): for every JSON value whose root is an object or array,
in which every object and array is non-empty and no object has exactly
the index labels as its key sequence, the normalized tree determines the
keys, their order, the nesting and the string forms of all scalars:
reconstruction from the rows returns exactly the stringified shape.  The
three exclusions are forced by the counterexample. -/
theorem c6_roundtrip_amended (v : Json) (hc : v.isComposite = true)
    (hg : goodJson v = true) :
    reconstructRows (normalizeJson v) = strShape v := by
  induction v using Json.inductionOn with
  | hnull => simp [Json.isComposite] at hc
  | hbool b => simp [Json.isComposite] at hc
  | hnum n => simp [Json.isComposite] at hc
  | hstr s => simp [Json.isComposite] at hc
  | harr vs ih =>
    have hsplit : ¬vs = [] ∧ goodElems vs = true := by simpa [goodJson] using hg
    have hkeys := keysIndexLike_normElems vs 0
    have hnil : (normElems 0 vs).isEmpty = false :=
      isEmpty_false_of_ne_nil (normElems_ne_nil vs hsplit.1 0)
    have helems := reconElems_normElems vs hsplit.2
      (fun w hw hgw hcw => ih w hw hcw hgw) 0
    simp [normalizeJson, reconstructRows, strShape, hkeys, hnil, helems]
  | hobj kvs ih =>
    have hsplit : (¬kvs = [] ∧ keysIndexLike 0 (kvs.map Prod.fst) = false) ∧
        goodFields kvs = true := by simpa [goodJson] using hg
    have hkeys : keysIndexLike 0 ((normFields kvs).map TreeRow.key) = false := by
      rw [normFields_map_key]; exact hsplit.1.2
    have hfields := reconFields_normFields kvs hsplit.2
      (fun kv hkv hgkv hckv => ih kv hkv hckv hgkv)
    simp [normalizeJson, reconstructRows, strShape, hkeys, hfields]

/-- Witness for the amended C6 at a search-like response shape. -/
theorem c6_roundtrip_amended_witness :
    (Json.obj [("hits", Json.obj [("total", Json.num 2),
        ("hits", Json.arr [Json.obj [("_id", Json.str "a")],
          Json.obj [("_id", Json.str "b")]])])]).isComposite = true ∧
    goodJson (Json.obj [("hits", Json.obj [("total", Json.num 2),
        ("hits", Json.arr [Json.obj [("_id", Json.str "a")],
          Json.obj [("_id", Json.str "b")]])])]) = true ∧
    reconstructRows (normalizeJson (Json.obj [("hits", Json.obj [("total", Json.num 2),
        ("hits", Json.arr [Json.obj [("_id", Json.str "a")],
          Json.obj [("_id", Json.str "b")]])])])) =
      strShape (Json.obj [("hits", Json.obj [("total", Json.num 2),
        ("hits", Json.arr [Json.obj [("_id", Json.str "a")],
          Json.obj [("_id", Json.str "b")]])])]) :=
  ⟨rfl, rfl, c6_roundtrip_amended _ rfl rfl⟩
